import Mathlib

set_option maxRecDepth 8000

/-! Verification of the core algorithms of `mc_builder.py`: terrain scanning,
A* path planning with greedy fallback, structure templates (capture, rotate,
mirror, paste) and the template listing.  The voxel world backend is modelled
as a total function from coordinates to block content; every function below is
a direct transcription of the corresponding Python function. -/

/-- A voxel world: the block stored at integer coordinates, given as its base
name together with its property list (amulet `Block.properties`, stringified).
The name "air" denotes an empty cell.  `level.get_version_block` is modelled
as application of this function; `level.set_version_block` as a pointwise
functional update. -/
abbrev World := Int → Int → Int → String × List (String × String)

/-- A column: an (x, z) pair (`(x, z)` tuple keys of the Python dicts). -/
abbrev Col := Int × Int

/-- `get_block`: base name of the block at a coordinate. -/
def get_block (W : World) (x y z : Int) : String := (W x y z).1

/-- `BLOCK_ALIASES`: the wrong-name to correct-name table applied by
`_fix_block_name` before every placement. -/
def BLOCK_ALIASES : List (String × String) :=
  [("tulip_red", "red_tulip"), ("tulip_orange", "orange_tulip"),
   ("tulip_pink", "pink_tulip"), ("tulip_white", "white_tulip"),
   ("oak_plank", "oak_planks"), ("spruce_plank", "spruce_planks"),
   ("birch_plank", "birch_planks"), ("dark_oak_plank", "dark_oak_planks"),
   ("stone_brick", "stone_bricks"), ("cobble", "cobblestone"),
   ("wood", "oak_planks")]

/-- `NATURAL_GROUND`: identifiers `scan_ground` recognises as natural ground. -/
def NATURAL_GROUND : List String :=
  ["grass_block", "dirt", "coarse_dirt", "podzol", "mycelium",
   "stone", "granite", "diorite", "andesite", "deepslate",
   "sand", "red_sand", "gravel", "clay", "mud", "soul_sand", "soul_soil",
   "sandstone", "red_sandstone", "terracotta", "calcite", "tuff",
   "snow_block", "ice", "packed_ice", "blue_ice",
   "netherrack", "basalt", "blackstone", "end_stone",
   "bedrock", "moss_block"]

/-- `BUILDING_BLOCKS`: known man-made identifiers. -/
def BUILDING_BLOCKS : List String :=
  ["oak_planks", "spruce_planks", "birch_planks", "dark_oak_planks",
   "jungle_planks", "acacia_planks", "mangrove_planks", "cherry_planks",
   "crimson_planks", "warped_planks", "bamboo_planks",
   "oak_stairs", "spruce_stairs", "birch_stairs", "dark_oak_stairs",
   "jungle_stairs", "acacia_stairs", "stone_stairs", "stone_brick_stairs",
   "cobblestone_stairs", "brick_stairs", "sandstone_stairs",
   "oak_slab", "spruce_slab", "birch_slab", "dark_oak_slab",
   "stone_slab", "stone_brick_slab", "cobblestone_slab", "brick_slab",
   "oak_log", "spruce_log", "birch_log", "dark_oak_log",
   "jungle_log", "acacia_log", "mangrove_log", "cherry_log",
   "stripped_oak_log", "stripped_spruce_log", "stripped_birch_log",
   "stripped_dark_oak_log", "stripped_jungle_log", "stripped_acacia_log",
   "oak_wood", "spruce_wood", "birch_wood", "dark_oak_wood",
   "oak_leaves", "spruce_leaves", "birch_leaves", "dark_oak_leaves",
   "jungle_leaves", "acacia_leaves", "azalea_leaves",
   "glass", "glass_pane",
   "white_stained_glass", "light_gray_stained_glass", "light_blue_stained_glass",
   "cyan_stained_glass", "orange_stained_glass",
   "stone_bricks", "mossy_stone_bricks", "cracked_stone_bricks",
   "bricks", "cobblestone", "mossy_cobblestone",
   "polished_granite", "polished_diorite", "polished_andesite",
   "smooth_stone", "smooth_stone_slab",
   "iron_block", "gold_block", "diamond_block",
   "white_concrete", "light_gray_concrete",
   "white_terracotta", "orange_terracotta", "light_gray_terracotta",
   "white_wool", "light_gray_wool",
   "crafting_table", "furnace", "chest", "barrel", "bookshelf",
   "lantern", "torch", "wall_torch", "campfire", "sea_lantern", "glowstone",
   "iron_door", "oak_door", "spruce_door", "birch_door", "dark_oak_door",
   "oak_fence", "spruce_fence", "birch_fence", "dark_oak_fence",
   "oak_fence_gate", "spruce_fence_gate",
   "ladder", "scaffolding",
   "polished_blackstone", "polished_blackstone_bricks",
   "deepslate_bricks", "polished_deepslate",
   "quartz_block", "quartz_pillar", "smooth_quartz"]

/-- `FLOWERS`: the flower list, also skipped as vegetation by `scan_ground`. -/
def FLOWERS : List String :=
  ["poppy", "dandelion", "blue_orchid", "allium", "azure_bluet",
   "cornflower", "lily_of_the_valley", "oxeye_daisy",
   "red_tulip", "orange_tulip", "pink_tulip", "white_tulip"]

/-- The inline vegetation tuple tested by `scan_ground`. -/
def VEGETATION_BLOCKS : List String :=
  ["short_grass", "tall_grass", "fern", "large_fern",
   "dead_bush", "sweet_berry_bush", "seagrass",
   "sugar_cane", "bamboo", "vine", "kelp",
   "brown_mushroom", "red_mushroom"]

/-- `_fix_block_name`: `BLOCK_ALIASES.get(name, name)`. -/
def fix_block_name (name : String) : String :=
  (BLOCK_ALIASES.lookup name).getD name

/-- `place_block`: writes the (alias-corrected) block and its properties at a
single coordinate; modelled as a functional world update. -/
def place_block (W : World) (x y z : Int) (name : String)
    (props : List (String × String)) : World :=
  fun a b c => if a = x ∧ b = y ∧ c = z then (fix_block_name name, props) else W a b c

/-- One column of `scan_ground`: walk `y` from `100` down to `31`
(`range(100, 30, -1)`), skipping air/water, building blocks and vegetation,
recording the first remaining cell.  The counter `k` encodes `y = 30 + k`. -/
def scanColumnAux (W : World) (x z : Int) : Nat → Option Int
  | 0 => none
  | k + 1 =>
    let y : Int := 30 + ((k : Int) + 1)
    let bid := get_block W x y z
    if bid = "air" ∨ bid = "water" then scanColumnAux W x z k
    else if bid ∈ BUILDING_BLOCKS then scanColumnAux W x z k
    else if bid ∈ VEGETATION_BLOCKS ∨ bid ∈ FLOWERS then scanColumnAux W x z k
    else if bid ∈ NATURAL_GROUND then some y
    else some y

/-- Result of `scan_ground` for one column (the vertical band is fixed, 70
candidate levels: y = 100 down to 31). -/
def scan_ground_column (W : World) (x z : Int) : Option Int :=
  scanColumnAux W x z 70

/-- `scan_ground`: the ground height map, as a partial function on columns.
A column is scanned iff it lies in the square
`range(cx - radius, cx + radius) x range(cz - radius, cz + radius)`. -/
def scan_ground (W : World) (cx cz radius : Int) : Col → Option Int :=
  fun c =>
    if cx - radius ≤ c.1 ∧ c.1 < cx + radius ∧ cz - radius ≤ c.2 ∧ c.2 < cz + radius
    then scan_ground_column W c.1 c.2
    else none

/-- The set of identifiers that make `scan_ground` keep descending in a
column (air/water, building blocks, vegetation, flowers). -/
def skipId (bid : String) : Prop :=
  bid = "air" ∨ bid = "water" ∨ bid ∈ BUILDING_BLOCKS ∨
    bid ∈ VEGETATION_BLOCKS ∨ bid ∈ FLOWERS

instance (bid : String) : Decidable (skipId bid) := by
  unfold skipId; infer_instance

/-- `ground.get(c, 64)`: height of a column with the planner's default. -/
def hGet (ground : Col → Option Int) (c : Col) : Int := (ground c).getD 64

/-- The A* heuristic: Manhattan distance between columns (an `int` in Python,
added to float scores). -/
def heuristic (a b : Col) : ℚ := ((a.1 - b.1).natAbs + (a.2 - b.2).natAbs : ℤ)

/-- `move_cost`: 1.414 for a diagonal step, 1.0 for an axis-aligned step. -/
def move_cost (dx dz : Int) : ℚ := if dx ≠ 0 ∧ dz ≠ 0 then 1414 / 1000 else 1

/-- `height_cost`: `abs(next_y - curr_y) * 3` with the columns' recorded
heights (default 64). -/
def height_cost (ground : Col → Option Int) (current neighbor : Col) : Int :=
  |hGet ground neighbor - hGet ground current| * 3

/-- The eight neighbor offsets, in source order. -/
def neighborOffsets : List (Int × Int) :=
  [(-1, 0), (1, 0), (0, -1), (0, 1), (-1, -1), (-1, 1), (1, -1), (1, 1)]

/-- Python tuple comparison on heap entries `(f_score, (x, z))`:
lexicographic on the f-score, then on the column. -/
def pqLtb (a b : ℚ × Col) : Bool :=
  if a.1 < b.1 then true
  else if b.1 < a.1 then false
  else if a.2.1 < b.2.1 then true
  else if b.2.1 < a.2.1 then false
  else decide (a.2.2 < b.2.2)

/-- Least element of a nonempty entry list under `pqLtb` (ties keep the
earlier element; tied entries are identical tuples, so the choice is
value-irrelevant). -/
def findMin : List (ℚ × Col) → Option (ℚ × Col)
  | [] => none
  | x :: xs => some (xs.foldl (fun m y => if pqLtb y m then y else m) x)

/-- Remove the first occurrence of a value from the entry list. -/
def eraseFirst : List (ℚ × Col) → ℚ × Col → List (ℚ × Col)
  | [], _ => []
  | x :: xs, v => if x = v then xs else x :: eraseFirst xs v

/-- `heapq.heappop`: extract the least entry.  A binary min-heap with Python's
total tuple order always yields the least element of the stored multiset. -/
def popMin (l : List (ℚ × Col)) : Option ((ℚ × Col) × List (ℚ × Col)) :=
  match findMin l with
  | none => none
  | some m => some (m, eraseFirst l m)

/-- The mutable state of the A* loop: `open_set` (heap contents), `came_from`
and `g_score` (dicts as partial functions). -/
structure AState where
  openSet : List (ℚ × Col)
  cameFrom : Col → Option Col
  gScore : Col → Option ℚ

/-- Process one neighbor offset of `current`: skip blocked or ground-less
columns, otherwise relax the edge and push on improvement.  `g_score[current]`
is always present when `current` was popped, so the `getD 0` default is never
used. -/
def expandNeighbor (ground : Col → Option Int) (blocked : Col → Bool)
    (endNode current : Col) (st : AState) (d : Int × Int) : AState :=
  let neighbor : Col := (current.1 + d.1, current.2 + d.2)
  if blocked neighbor then st
  else if (ground neighbor).isNone then st
  else
    let tentative : ℚ := (st.gScore current).getD 0 + move_cost d.1 d.2 +
      (height_cost ground current neighbor : ℤ)
    let better : Bool :=
      match st.gScore neighbor with
      | none => true
      | some g => decide (tentative < g)
    if better then
      { openSet := st.openSet ++ [(tentative + heuristic neighbor endNode, neighbor)],
        cameFrom := fun c => if c = neighbor then some current else st.cameFrom c,
        gScore := fun c => if c = neighbor then some tentative else st.gScore c }
    else st

/-- Relax all eight neighbors of `current`, in source order. -/
def expandAll (ground : Col → Option Int) (blocked : Col → Bool)
    (endNode current : Col) (st : AState) : AState :=
  neighborOffsets.foldl (expandNeighbor ground blocked endNode current) st

/-- The A* main loop: pop the least open entry, stop on the goal or on an
empty open set, and return the final `came_from` map.  `fuel` bounds the
number of iterations; `none` means the bound was hit. -/
def astarLoop (ground : Col → Option Int) (blocked : Col → Bool) (endNode : Col) :
    Nat → AState → Option (Col → Option Col)
  | 0, _ => none
  | fuel + 1, st =>
    match popMin st.openSet with
    | none => some st.cameFrom
    | some (entry, rest) =>
      if entry.2 = endNode then some st.cameFrom
      else
        astarLoop ground blocked endNode fuel
          (expandAll ground blocked endNode entry.2 { st with openSet := rest })

/-- Initial A* state: `open_set = [(0, start)]`, empty `came_from`,
`g_score = {start: 0}`. -/
def initState (startNode : Col) : AState :=
  { openSet := [(0, startNode)],
    cameFrom := fun _ => none,
    gScore := fun c => if c = startNode then some (0 : ℚ) else none }

/-- Path reconstruction: walk `came_from` from the goal, collecting
`(x, ground.get((x,z), 64), z)` triples, then append the start and reverse
(rendered here by building the reversed list directly).  `fuel` bounds the
walk length. -/
def reconstruct (ground : Col → Option Int) (cf : Col → Option Col)
    (startNode : Col) : Nat → Col → List (Int × Int × Int) →
    Option (List (Int × Int × Int))
  | 0, _, _ => none
  | fuel + 1, current, acc =>
    match cf current with
    | some p =>
      reconstruct ground cf startNode fuel p
        ((current.1, hGet ground current, current.2) :: acc)
    | none => some ((startNode.1, hGet ground startNode, startNode.2) :: acc)

/-- `dx = 1 if b > a else (-1 if b < a else 0)`. -/
def stepDir (a b : Int) : Int := if b > a then 1 else if b < a then -1 else 0

/-- The greedy fallback walk taken when A* fails: alternate x/z steps toward
the goal, the choice between them drawn from `random.random() < 0.5`, modelled
by the boolean stream `rand` (consumed only when Python evaluates the draw,
i.e. when both coordinates still differ from the goal). -/
def fallbackWalk (ground : Col → Option Int) (ex ez dx dz : Int)
    (rand : Nat → Bool) : Nat → Int → Int → Nat → List (Int × Int × Int) →
    Option (List (Int × Int × Int))
  | 0, _, _, _, _ => none
  | fuel + 1, x, z, i, acc =>
    if x = ex ∧ z = ez then some (acc ++ [(ex, hGet ground (ex, ez), ez)])
    else
      let acc2 := acc ++ [(x, hGet ground (x, z), z)]
      if x ≠ ex then
        if z = ez then fallbackWalk ground ex ez dx dz rand fuel (x + dx) z i acc2
        else if rand i then fallbackWalk ground ex ez dx dz rand fuel (x + dx) z (i + 1) acc2
        else fallbackWalk ground ex ez dx dz rand fuel x (z + dz) (i + 1) acc2
      else fallbackWalk ground ex ez dx dz rand fuel x (z + dz) i acc2

/-- The planning core of `build_smart_path` (source lines 369-434): A* over
the 8-connected column grid followed by reconstruction, or the greedy
fallback when the goal was never reached.  `ground` and `blocked` are the
precomputed height map and blocked set; the returned flag is `true` exactly
when the degraded fallback warning is printed.  `none` only when `fuel` is
too small for the loops. -/
def build_smart_path (ground : Col → Option Int) (blocked : Col → Bool)
    (startNode endNode : Col) (rand : Nat → Bool) (fuel : Nat) :
    Option (List (Int × Int × Int) × Bool) :=
  match astarLoop ground blocked endNode fuel (initState startNode) with
  | none => none
  | some cf =>
    if (cf endNode).isNone ∧ endNode ≠ startNode then
      match fallbackWalk ground endNode.1 endNode.2
          (stepDir startNode.1 endNode.1) (stepDir startNode.2 endNode.2)
          rand fuel startNode.1 startNode.2 0 [] with
      | none => none
      | some r => some (r, true)
    else
      match reconstruct ground cf startNode fuel endNode [] with
      | none => none
      | some r => some (r, false)

/-- One template entry: relative position, block name, property list
(`props` omitted-when-empty is rendered as the empty list, which `paste`
treats identically via `entry.get("props", {})`). -/
structure TEntry where
  pos : Int × Int × Int
  name : String
  props : List (String × String)
deriving DecidableEq

/-- A structure template: size, block count, entries, and the capture-box
provenance metadata. -/
structure Template where
  size : Int × Int × Int
  block_count : Nat
  blocks : List TEntry
  scanned_from : Int × Int × Int
  scanned_to : Int × Int × Int
deriving DecidableEq

/-- Integer range `[a, b]`, ascending (Python `range(a, b + 1)`). -/
def rangeInt (a b : Int) : List Int :=
  (List.range (b + 1 - a).toNat).map (fun i : Nat => a + (i : Int))

/-- All coordinates of the bounding box, x outermost, z innermost, matching
the scan loops. -/
def boxCoords (minx maxx miny maxy minz maxz : Int) : List (Int × Int × Int) :=
  (rangeInt minx maxx).flatMap fun x =>
    (rangeInt miny maxy).flatMap fun y =>
      (rangeInt minz maxz).map fun z => (x, y, z)

/-- The entry `scan_structure` records for one cell: skip air, otherwise keep
the name, the verbatim property list, and the min-corner-relative position. -/
def mkScanEntry (W : World) (minx miny minz : Int) (q : Int × Int × Int) :
    Option TEntry :=
  let b := W q.1 q.2.1 q.2.2
  if b.1 = "air" then none
  else some ⟨(q.1 - minx, q.2.1 - miny, q.2.2 - minz), b.1, b.2⟩

/-- `scan_structure`: normalize the two corners, record every non-air cell of
the box relative to the minimum corner. -/
def scan_structure (W : World) (x1 y1 z1 x2 y2 z2 : Int) : Template :=
  let minx := min x1 x2
  let maxx := max x1 x2
  let miny := min y1 y2
  let maxy := max y1 y2
  let minz := min z1 z2
  let maxz := max z1 z2
  let blocks := (boxCoords minx maxx miny maxy minz maxz).filterMap
    (mkScanEntry W minx miny minz)
  { size := (maxx - minx + 1, maxy - miny + 1, maxz - minz + 1),
    block_count := blocks.length,
    blocks := blocks,
    scanned_from := (minx, miny, minz),
    scanned_to := (maxx, maxy, maxz) }

/-- `_rotate_pos`: rotate a relative coordinate about the y axis inside the
`(sx, sy, sz)` box (`sy` is unused, as in the source). -/
def rot_pos (rx ry rz sx sy sz : Int) (angle : Int) : Int × Int × Int :=
  if angle = 0 then (rx, ry, rz)
  else if angle = 90 then (sz - 1 - rz, ry, rx)
  else if angle = 180 then (sx - 1 - rx, ry, sz - 1 - rz)
  else if angle = 270 then (rz, ry, sx - 1 - rx)
  else (rx, ry, rz)

/-- The `directions` list of `_rotate_facing`. -/
def facingDirections : List String := ["north", "east", "south", "west"]

/-- `_rotate_facing`: advance a horizontal facing by `angle // 90` steps
through north/east/south/west; other values pass through.  Python's floor
division and nonnegative modulo are `Int.fdiv` / `Int.fmod`. -/
def rot_facing (facing : String) (angle : Int) : String :=
  if facing ∈ facingDirections then
    facingDirections.getD
      (((facingDirections.indexOf facing : Int) + angle.fdiv 90).fmod 4).toNat
      facing
  else facing

/-- `_rotate_axis`: swap the x and z axes under 90 or 270 degree rotation. -/
def rot_axis (axis : String) (angle : Int) : String :=
  if angle = 90 ∨ angle = 270 then
    if axis = "x" then "z" else if axis = "z" then "x" else axis
  else axis

/-- The property rewrite `paste_structure` performs after rotating a
position: the "facing" value through `_rotate_facing`, the "axis" value
through `_rotate_axis`, everything else untouched. -/
def rotateProps (props : List (String × String)) (angle : Int) :
    List (String × String) :=
  props.map fun kv =>
    if kv.1 = "facing" then (kv.1, rot_facing kv.2 angle)
    else if kv.1 = "axis" then (kv.1, rot_axis kv.2 angle)
    else kv

/-- The mirror step of `paste_structure` on the property list: east and west
facings swap, everything else untouched. -/
def mirrorProps (props : List (String × String)) : List (String × String) :=
  props.map fun kv =>
    if kv.1 = "facing" then
      (kv.1, if kv.2 = "east" then "west"
             else if kv.2 = "west" then "east" else kv.2)
    else kv

/-- Replay one template entry at origin `(x, y, z)`: optional x-mirror, then
rotation of position and orientation properties, then `place_block`; the
second component counts the writes. -/
def applyTEntry (sx sy sz x y z : Int) (rotate : Int) (mirror : Bool)
    (acc : World × Nat) (entry : TEntry) : World × Nat :=
  let rx := entry.pos.1
  let ry := entry.pos.2.1
  let rz := entry.pos.2.2
  let props := entry.props
  let rx2 := if mirror then sx - 1 - rx else rx
  let props2 := if mirror then mirrorProps props else props
  let rp := rot_pos rx2 ry rz sx sy sz rotate
  let props3 := rotateProps props2 rotate
  (place_block acc.1 (x + rp.1) (y + rp.2.1) (z + rp.2.2) entry.name props3,
   acc.2 + 1)

/-- `paste_structure`: write every entry of the template into the world at
origin `(x, y, z)` with the requested rotation and mirror; returns the new
world and the count of cells written. -/
def paste_structure (W : World) (T : Template) (x y z : Int) (rotate : Int)
    (mirror : Bool) : World × Nat :=
  T.blocks.foldl
    (applyTEntry T.size.1 T.size.2.1 T.size.2.2 x y z rotate mirror) (W, 0)

/-- Modelled from the spec: the template-level 90 degree rotation
(`rotate(T, 90)`); the source only rotates entries on the fly inside
`paste_structure`, so the spec's standalone transform is assembled here from
the source primitives: each entry position through `_rotate_pos` with
`angle = 90`, each "facing"/"axis" property through `_rotate_facing` /
`_rotate_axis`, and the box footprint swapping width and depth. -/
def rotateEntry90 (sx sy sz : Int) (e : TEntry) : TEntry :=
  ⟨rot_pos e.pos.1 e.pos.2.1 e.pos.2.2 sx sy sz 90, e.name,
   rotateProps e.props 90⟩

/-- Modelled from the spec: rotate a whole template by 90 degrees (see
`rotateEntry90`); size `(dx, dy, dz)` becomes `(dz, dy, dx)`, the entry list
is mapped, the count and capture metadata are unchanged. -/
def template_rotate90 (T : Template) : Template :=
  { size := (T.size.2.2, T.size.2.1, T.size.1),
    block_count := T.block_count,
    blocks := T.blocks.map (rotateEntry90 T.size.1 T.size.2.1 T.size.2.2),
    scanned_from := T.scanned_from,
    scanned_to := T.scanned_to }

/-- The parse outcome of one stored template file: `none` when `json.load`
raises (unparseable text), otherwise the optional `size` and `block_count`
fields of the document. -/
structure TemplateFileDoc where
  size : Option (Int × Int × Int)
  block_count : Option Int
deriving DecidableEq

/-- One row of the `list_templates` output. -/
structure TemplateInfo where
  name : String
  size : Int × Int × Int
  block_count : Int
deriving DecidableEq

/-- Python `fname.endswith(suffix)`, computed on the character data. -/
def strEndsWith (s suffix : String) : Bool :=
  List.isSuffixOf suffix.data s.data

/-- Python slicing `s[:-n]` (for `n` at most the length): drop the last `n`
characters. -/
def strDropRight (s : String) (n : Nat) : String :=
  ⟨s.data.take (s.data.length - n)⟩

/-- `list_templates`: the template directory is a list of (filename, parse
outcome) pairs; files not ending in ".json" are ignored, unparseable files
are silently skipped, and each remaining file yields its key (name minus the
extension), its `size` (default `[0,0,0]`) and its `block_count`
(default 0). -/
def list_templates (dir : List (String × Option TemplateFileDoc)) :
    List TemplateInfo :=
  dir.filterMap fun fd =>
    if strEndsWith fd.1 ".json" then
      match fd.2 with
      | none => none
      | some d => some ⟨strDropRight fd.1 5, d.size.getD (0, 0, 0), d.block_count.getD 0⟩
    else none

/-- Modelled from the spec: "the first non-empty, non-liquid, non-vegetation
cell found while scanning the vertical band from high to low" — the premise of
the ground-only-query claim, stated independently of the implementation so the
claim can be compared against `scan_ground_column`.  Returns that cell's
height and identifier.  Same band encoding as `scanColumnAux`. -/
def firstNonVegCell (W : World) (x z : Int) : Nat → Option (Int × String)
  | 0 => none
  | k + 1 =>
    let y : Int := 30 + ((k : Int) + 1)
    let bid := get_block W x y z
    if bid = "air" ∨ bid = "water" ∨ bid ∈ VEGETATION_BLOCKS ∨ bid ∈ FLOWERS then
      firstNonVegCell W x z k
    else some (y, bid)

/-- Invariant of the A* loop: every column with a `came_from` predecessor
passed the blocked check when it was relaxed. -/
def CFInv (cf : Col → Option Col) (blocked : Col → Bool) : Prop :=
  ∀ c : Col, cf c ≠ none → blocked c = false

/-- Example height map: ground at columns (0,0) and (1,0) only. -/
def exGround : Col → Option Int :=
  fun c => if c = (0, 0) ∨ c = (1, 0) then some 64 else none

/-- Example blocked set: nothing blocked. -/
def exBlockedNone : Col → Bool := fun _ => false

/-- Example blocked set: exactly the start column (0,0). -/
def exBlockedStart : Col → Bool := fun c => c = (0, 0)

/-- Example height map with a gap: ground only at (0,0) and (2,2), which are
not 8-adjacent, so the A* search exhausts its open set. -/
def exGroundGap : Col → Option Int :=
  fun c => if c = (0, 0) ∨ c = (2, 2) then some 0 else none

/-- The all-true draw stream (every `random.random() < 0.5` comes out true). -/
def randTrue : Nat → Bool := fun _ => true

/-- The all-false draw stream. -/
def randFalse : Nat → Bool := fun _ => false

/-- Example world holding a single "wood" block (an alias-table key) at the
origin. -/
def exWorldWood : World :=
  fun x y z =>
    if x = 0 ∧ y = 0 ∧ z = 0 then ("wood", [("facing", "east")]) else ("air", [])

/-- Example world made entirely of "stone". -/
def exWorldStone : World := fun _ _ _ => ("stone", [])

/-- Example empty world. -/
def exWorldAir : World := fun _ _ _ => ("air", [])

/-- Example world whose every column has "oak_planks" (a building block) at
y = 50 with "grass_block" directly below at y = 49. -/
def exWorldColumn : World :=
  fun _ y _ =>
    if y = 50 then ("oak_planks", [])
    else if y = 49 then ("grass_block", []) else ("air", [])

/-- Example template directory: a malformed file, a parseable file with no
size/count fields, and a non-json file. -/
def exDir : List (String × Option TemplateFileDoc) :=
  [("bad.json", none), ("a.json", some ⟨none, none⟩),
   ("x.txt", some ⟨some (1, 1, 1), some 5⟩)]

lemma facing_mem_cases (v : String) (h : v ∈ facingDirections) :
    v = "north" ∨ v = "east" ∨ v = "south" ∨ v = "west" := by
  simpa [facingDirections] using h

lemma rot_facing_not_mem (v : String) (h : v ∉ facingDirections) (a : Int) :
    rot_facing v a = v := by
  simp [rot_facing, h]

lemma rot_facing_four (v : String) :
    rot_facing (rot_facing (rot_facing (rot_facing v 90) 90) 90) 90 = v := by
  by_cases h : v ∈ facingDirections
  · rcases facing_mem_cases v h with h | h | h | h <;> subst h <;> decide
  · rw [rot_facing_not_mem v h, rot_facing_not_mem v h, rot_facing_not_mem v h,
      rot_facing_not_mem v h]

lemma rot_axis_double (v : String) : rot_axis (rot_axis v 90) 90 = v := by
  by_cases hx : v = "x"
  · subst hx; decide
  · by_cases hz : v = "z"
    · subst hz; decide
    · simp [rot_axis, hx, hz]

lemma rotPropKV_four (kv : String × String) :
    (fun kv : String × String =>
        if kv.1 = "facing" then (kv.1, rot_facing kv.2 90)
        else if kv.1 = "axis" then (kv.1, rot_axis kv.2 90) else kv)
      ((fun kv : String × String =>
        if kv.1 = "facing" then (kv.1, rot_facing kv.2 90)
        else if kv.1 = "axis" then (kv.1, rot_axis kv.2 90) else kv)
      ((fun kv : String × String =>
        if kv.1 = "facing" then (kv.1, rot_facing kv.2 90)
        else if kv.1 = "axis" then (kv.1, rot_axis kv.2 90) else kv)
      ((fun kv : String × String =>
        if kv.1 = "facing" then (kv.1, rot_facing kv.2 90)
        else if kv.1 = "axis" then (kv.1, rot_axis kv.2 90) else kv) kv))) = kv := by
  obtain ⟨k, v⟩ := kv
  by_cases hf : k = "facing"
  · subst hf; simp [rot_facing_four]
  · by_cases ha : k = "axis"
    · subst ha; simp [rot_axis_double]
    · simp [hf, ha]

lemma rotateProps_four (ps : List (String × String)) :
    rotateProps (rotateProps (rotateProps (rotateProps ps 90) 90) 90) 90 = ps := by
  induction ps with
  | nil => rfl
  | cons kv l ih =>
    simp only [rotateProps, List.map_cons] at ih ⊢
    exact congrArg₂ _ (rotPropKV_four kv) ih

lemma rotateEntry90_four (sx sy sz : Int) (e : TEntry) :
    rotateEntry90 sz sy sx (rotateEntry90 sx sy sz
      (rotateEntry90 sz sy sx (rotateEntry90 sx sy sz e))) = e := by
  obtain ⟨⟨px, py, pz⟩, nm, ps⟩ := e
  simp only [rotateEntry90, rot_pos]
  norm_num
  exact rotateProps_four ps

/-- C2: the template-level 90 degree rotation (box footprint swap, facing
advanced one step, axis swapped) applied four times is the identity on every
template, entry positions and attribute values included. -/
theorem c2_rotation_closure (T : Template) :
    template_rotate90 (template_rotate90 (template_rotate90
      (template_rotate90 T))) = T := by
  obtain ⟨⟨sx, sy, sz⟩, bc, bs, sf, st⟩ := T
  simp only [template_rotate90, Template.mk.injEq, Prod.mk.injEq]
  refine ⟨trivial, trivial, ?_, trivial, trivial⟩
  induction bs with
  | nil => rfl
  | cons e l ih =>
    simp only [List.map_cons] at ih ⊢
    exact congrArg₂ _ (rotateEntry90_four sx sy sz e) ih

/-- C7 counterexample: the diagonal step cost of the planner is the literal
constant 1.414, which is not the square root of 2 the claim demands. -/
theorem c7_counterexample : ((move_cost 1 1 : ℚ) : ℝ) ≠ Real.sqrt 2 := by
  intro h
  have h2 : ((move_cost 1 1 : ℚ) : ℝ) ^ 2 = 2 := by
    rw [h]; exact Real.sq_sqrt (by norm_num)
  rw [show (move_cost 1 1 : ℚ) = 1414 / 1000 from by norm_num [move_cost]] at h2
  norm_num at h2

/-- C7 (corrected): every edge relaxed by the search costs `move_cost` plus
the elevation penalty: exactly 1 for each axis-aligned offset, exactly
1414/1000 (an approximation of the square root of 2, not the exact value) for
each diagonal offset, plus 3 times the absolute elevation difference of the
two columns' recorded heights. -/
theorem c7_edge_cost (ground : Col → Option Int) (current neighbor : Col) :
    move_cost 1 1 = 1414 / 1000 ∧ move_cost (-1) 1 = 1414 / 1000 ∧
    move_cost 1 (-1) = 1414 / 1000 ∧ move_cost (-1) (-1) = 1414 / 1000 ∧
    move_cost 1 0 = 1 ∧ move_cost (-1) 0 = 1 ∧
    move_cost 0 1 = 1 ∧ move_cost 0 (-1) = 1 ∧
    (height_cost ground current neighbor : ℚ) =
      3 * |(hGet ground neighbor : ℚ) - (hGet ground current : ℚ)| := by
  refine ⟨by norm_num [move_cost], by norm_num [move_cost], by norm_num [move_cost],
    by norm_num [move_cost], by norm_num [move_cost], by norm_num [move_cost],
    by norm_num [move_cost], by norm_num [move_cost], ?_⟩
  unfold height_cost
  push_cast
  ring

/-- C8 counterexample: the syntactically valid identifier "wood" is not
written unchanged — `place_block` rewrites it through `BLOCK_ALIASES` to
"oak_planks". -/
theorem c8_counterexample :
    get_block (place_block exWorldAir 0 0 0 "wood" []) 0 0 0 = "oak_planks" ∧
    ("oak_planks" : String) ≠ "wood" := by
  decide

/-- C8 (corrected): identifiers are passed through to the world unchanged
exactly when they are not keys of the alias table; an alias-table key is
rewritten to its corrected name, and no identifier is ever rejected at this
layer. -/
theorem c8_passthrough (W : World) (x y z : Int) (name : String)
    (props : List (String × String)) (h : BLOCK_ALIASES.lookup name = none) :
    place_block W x y z name props x y z = (name, props) := by
  simp [place_block, fix_block_name, h]

/-- C8 witness: a fresh identifier outside the alias table is written
verbatim. -/
theorem c8_witness :
    place_block exWorldAir 0 0 0 "mystery_block" [] 0 0 0 = ("mystery_block", []) :=
  c8_passthrough exWorldAir 0 0 0 "mystery_block" [] (by decide)

/-- C10: every row produced by `list_templates` comes from a file whose name
ends in ".json" and whose document parsed; the row carries the file's key
(name minus the extension), the document's size defaulting to (0,0,0), and
its block count defaulting to 0.  Unparseable or non-json files contribute
nothing and raise nothing (the function is total). -/
theorem c10_list_templates (dir : List (String × Option TemplateFileDoc))
    (info : TemplateInfo) (h : info ∈ list_templates dir) :
    ∃ fname d, (fname, some d) ∈ dir ∧ strEndsWith fname ".json" = true ∧
      info.name = strDropRight fname 5 ∧ info.size = d.size.getD (0, 0, 0) ∧
      info.block_count = d.block_count.getD 0 := by
  simp only [list_templates, List.mem_filterMap] at h
  obtain ⟨fd, hfd, hmk⟩ := h
  by_cases he : strEndsWith fd.1 ".json"
  · rw [if_pos he] at hmk
    cases hd : fd.2 with
    | none => rw [hd] at hmk; exact absurd hmk (by simp)
    | some d =>
      rw [hd] at hmk
      refine ⟨fd.1, d, ?_, he, ?_, ?_, ?_⟩
      · have : fd = (fd.1, some d) := by rw [← hd]
        rw [← this]; exact hfd
      · rw [← Option.some_inj.mp hmk]
      · rw [← Option.some_inj.mp hmk]
      · rw [← Option.some_inj.mp hmk]
  · rw [if_neg he] at hmk
    exact absurd hmk (by simp)

/-- C10 witness: on a directory with a malformed json file, a field-less json
file and a non-json file, the single listed row is characterised by the
theorem. -/
theorem c10_witness :
    ∃ fname d, (fname, some d) ∈ exDir ∧ strEndsWith fname ".json" = true ∧
      ("a" : String) = strDropRight fname 5 ∧
      ((0 : Int), (0 : Int), (0 : Int)) = d.size.getD (0, 0, 0) ∧
      (0 : Int) = d.block_count.getD 0 :=
  c10_list_templates exDir ⟨"a", (0, 0, 0), 0⟩ (by decide)

lemma mem_rangeInt {a b v : Int} : v ∈ rangeInt a b ↔ a ≤ v ∧ v ≤ b := by
  unfold rangeInt
  rw [List.mem_map]
  constructor
  · rintro ⟨i, hi, rfl⟩
    rw [List.mem_range] at hi
    omega
  · rintro ⟨h1, h2⟩
    exact ⟨(v - a).toNat, List.mem_range.mpr (by omega), by omega⟩

lemma mem_boxCoords {minx maxx miny maxy minz maxz a b c : Int} :
    (a, b, c) ∈ boxCoords minx maxx miny maxy minz maxz ↔
      minx ≤ a ∧ a ≤ maxx ∧ miny ≤ b ∧ b ≤ maxy ∧ minz ≤ c ∧ c ≤ maxz := by
  simp only [boxCoords, List.mem_flatMap, List.mem_map, mem_rangeInt,
    Prod.mk.injEq]
  constructor
  · rintro ⟨x, hx, y, hy, z, hz, rfl, rfl, rfl⟩
    exact ⟨hx.1, hx.2, hy.1, hy.2, hz.1, hz.2⟩
  · rintro ⟨h1, h2, h3, h4, h5, h6⟩
    exact ⟨a, ⟨h1, h2⟩, b, ⟨h3, h4⟩, c, ⟨h5, h6⟩, rfl, rfl, rfl⟩

/-- C9: every template produced by `scan_structure` has size equal to
max minus min plus one per axis of the normalized corners, and every entry's
relative coordinate lies in `[0, size)` componentwise. -/
theorem c9_capture_invariant (W : World) (x1 y1 z1 x2 y2 z2 : Int) (e : TEntry)
    (he : e ∈ (scan_structure W x1 y1 z1 x2 y2 z2).blocks) :
    (scan_structure W x1 y1 z1 x2 y2 z2).size =
      (max x1 x2 - min x1 x2 + 1, max y1 y2 - min y1 y2 + 1,
       max z1 z2 - min z1 z2 + 1) ∧
    0 ≤ e.pos.1 ∧ e.pos.1 < max x1 x2 - min x1 x2 + 1 ∧
    0 ≤ e.pos.2.1 ∧ e.pos.2.1 < max y1 y2 - min y1 y2 + 1 ∧
    0 ≤ e.pos.2.2 ∧ e.pos.2.2 < max z1 z2 - min z1 z2 + 1 := by
  refine ⟨rfl, ?_⟩
  simp only [scan_structure, List.mem_filterMap] at he
  obtain ⟨q, hq, hmk⟩ := he
  obtain ⟨qx, qy, qz⟩ := q
  rw [mem_boxCoords] at hq
  simp only [mkScanEntry] at hmk
  by_cases hair : (W qx qy qz).1 = "air"
  · rw [if_pos hair] at hmk; exact absurd hmk (by simp)
  · rw [if_neg hair] at hmk
    rw [← Option.some_inj.mp hmk]
    simp only
    omega

/-- C9 witness: the invariant at a concrete capture of a 2x2x2 stone box. -/
theorem c9_witness :
    (scan_structure exWorldStone 0 0 0 1 1 1).size = (2, 2, 2) ∧
    0 ≤ (TEntry.mk (0, 0, 0) "stone" []).pos.1 ∧
    (TEntry.mk (0, 0, 0) "stone" []).pos.1 < 2 ∧
    0 ≤ (TEntry.mk (0, 0, 0) "stone" []).pos.2.1 ∧
    (TEntry.mk (0, 0, 0) "stone" []).pos.2.1 < 2 ∧
    0 ≤ (TEntry.mk (0, 0, 0) "stone" []).pos.2.2 ∧
    (TEntry.mk (0, 0, 0) "stone" []).pos.2.2 < 2 :=
  c9_capture_invariant exWorldStone 0 0 0 1 1 1 ⟨(0, 0, 0), "stone", []⟩ (by decide)

lemma rot_facing_zero (v : String) : rot_facing v 0 = v := by
  by_cases h : v ∈ facingDirections
  · rcases facing_mem_cases v h with h | h | h | h <;> subst h <;> decide
  · exact rot_facing_not_mem v h 0

lemma rot_axis_zero (v : String) : rot_axis v 0 = v := by
  simp [rot_axis]

lemma rotateProps_zero (ps : List (String × String)) : rotateProps ps 0 = ps := by
  unfold rotateProps
  conv_rhs => rw [← List.map_id ps]
  refine List.map_congr_left ?_
  rintro ⟨k, v⟩ _
  by_cases hf : k = "facing"
  · subst hf; simp [rot_facing_zero]
  · by_cases ha : k = "axis"
    · subst ha; simp [rot_axis_zero]
    · simp [hf, ha]

lemma applyTEntry_zero (sx sy sz x y z : Int) (acc : World × Nat) (e : TEntry) :
    applyTEntry sx sy sz x y z 0 false acc e =
      (place_block acc.1 (x + e.pos.1) (y + e.pos.2.1) (z + e.pos.2.2)
        e.name e.props, acc.2 + 1) := by
  simp [applyTEntry, rot_pos, rotateProps_zero]

lemma paste0_fold (W : World) (sx sy sz minx miny minz : Int)
    (L : List (Int × Int × Int)) :
    ∀ (A : World) (n : Nat) (a b c : Int),
    (List.foldl (applyTEntry sx sy sz minx miny minz 0 false) (A, n)
        (L.filterMap (mkScanEntry W minx miny minz))).1 a b c =
      if (a, b, c) ∈ L ∧ (W a b c).1 ≠ "air"
      then (fix_block_name (W a b c).1, (W a b c).2)
      else A a b c := by
  induction L with
  | nil =>
    intro A n a b c
    simp
  | cons q L ih =>
    intro A n a b c
    obtain ⟨qx, qy, qz⟩ := q
    rw [List.filterMap_cons]
    by_cases hair : (W qx qy qz).1 = "air"
    · rw [show mkScanEntry W minx miny minz (qx, qy, qz) = none from by
        simp [mkScanEntry, hair]]
      rw [ih A n a b c]
      by_cases hpq : (a, b, c) = ((qx, qy, qz) : Int × Int × Int)
      · simp only [Prod.mk.injEq] at hpq
        obtain ⟨rfl, rfl, rfl⟩ := hpq
        simp [hair]
      · have hmem : ((a, b, c) ∈ (qx, qy, qz) :: L) ↔ ((a, b, c) ∈ L) := by
          simp [List.mem_cons, hpq]
        simp only [hmem]
    · rw [show mkScanEntry W minx miny minz (qx, qy, qz) =
          some ⟨(qx - minx, qy - miny, qz - minz), (W qx qy qz).1, (W qx qy qz).2⟩
        from by simp [mkScanEntry, hair]]
      rw [List.foldl_cons, applyTEntry_zero]
      rw [ih _ _ a b c]
      simp only
      by_cases hpq : (a, b, c) = ((qx, qy, qz) : Int × Int × Int)
      · simp only [Prod.mk.injEq] at hpq
        obtain ⟨rfl, rfl, rfl⟩ := hpq
        by_cases hmem : ((a, b, c) ∈ L) ∧ (W a b c).1 ≠ "air"
        · rw [if_pos hmem, if_pos ⟨by simp, hair⟩]
        · rw [if_neg hmem, if_pos ⟨by simp, hair⟩]
          simp only [place_block]
          rw [if_pos ⟨by omega, by omega, by omega⟩]
      · simp only [Prod.mk.injEq] at hpq
        have hmem : ((a, b, c) ∈ (qx, qy, qz) :: L) ↔ ((a, b, c) ∈ L) := by
          simp only [List.mem_cons, Prod.mk.injEq]
          constructor
          · rintro (h | h)
            · exact absurd h hpq
            · exact h
          · exact Or.inr
        simp only [hmem]
        by_cases hm2 : ((a, b, c) ∈ L) ∧ (W a b c).1 ≠ "air"
        · rw [if_pos hm2, if_pos hm2]
        · rw [if_neg hm2, if_neg hm2]
          simp only [place_block]
          rw [if_neg (by
            rintro ⟨h1, h2, h3⟩
            exact hpq ⟨by omega, by omega, by omega⟩)]

/-- C1 counterexample: a world holding the alias-table key "wood" at the
origin is not reproduced by capture-then-paste at the same corner — the
replayed cell holds "oak_planks" instead of the captured "wood". -/
theorem c1_counterexample :
    get_block (paste_structure exWorldWood
        (scan_structure exWorldWood 0 0 0 0 0 0) 0 0 0 0 false).1 0 0 0 =
      "oak_planks" ∧
    get_block exWorldWood 0 0 0 = "wood" ∧ ("oak_planks" : String) ≠ "wood" := by
  decide

/-- C1 (corrected): provided no non-empty cell of the bounding box holds an
identifier from the alias table, pasting the captured template back at the
box minimum with rotation 0 and no mirror leaves the whole world unchanged:
every non-empty box cell again holds exactly its captured identifier and
attribute map, and empty cells are never written. -/
theorem c1_roundtrip (W : World) (x1 y1 z1 x2 y2 z2 a b c : Int)
    (hfix : ∀ qx qy qz : Int, min x1 x2 ≤ qx → qx ≤ max x1 x2 →
      min y1 y2 ≤ qy → qy ≤ max y1 y2 → min z1 z2 ≤ qz → qz ≤ max z1 z2 →
      fix_block_name (W qx qy qz).1 = (W qx qy qz).1) :
    (paste_structure W (scan_structure W x1 y1 z1 x2 y2 z2)
      (min x1 x2) (min y1 y2) (min z1 z2) 0 false).1 a b c = W a b c := by
  unfold paste_structure scan_structure
  simp only
  rw [paste0_fold]
  by_cases h : ((a, b, c) ∈ boxCoords (min x1 x2) (max x1 x2) (min y1 y2)
      (max y1 y2) (min z1 z2) (max z1 z2)) ∧ (W a b c).1 ≠ "air"
  · rw [if_pos h]
    obtain ⟨h1, h2, h3, h4, h5, h6⟩ := mem_boxCoords.mp h.1
    rw [hfix a b c h1 h2 h3 h4 h5 h6]
  · rw [if_neg h]

/-- C1 witness: the round trip at a concrete all-stone box. -/
theorem c1_witness :
    (paste_structure exWorldStone (scan_structure exWorldStone 0 0 0 1 1 1)
      (min 0 1) (min 0 1) (min 0 1) 0 false).1 0 0 0 = exWorldStone 0 0 0 :=
  c1_roundtrip exWorldStone 0 0 0 1 1 1 0 0 0
    (fun _ _ _ _ _ _ _ _ _ => rfl)

lemma scanColumnAux_spec (W : World) (x z : Int) :
    ∀ (k : Nat) (y : Int), 30 < y → y ≤ 30 + (k : Int) →
    (∀ j : Nat, j < k → y < 30 + ((j : Int) + 1) →
      skipId (get_block W x (30 + ((j : Int) + 1)) z)) →
    ¬ skipId (get_block W x y z) →
    scanColumnAux W x z k = some y := by
  intro k
  induction k with
  | zero =>
    intro y h1 h2 _ _
    omega
  | succ k ih =>
    intro y h1 h2 h3 h4
    by_cases hy : y = 30 + ((k : Int) + 1)
    · subst hy
      unfold skipId at h4
      push_neg at h4
      obtain ⟨ha, hw, hb, hv, hf⟩ := h4
      show scanColumnAux W x z (k + 1) = _
      unfold scanColumnAux
      simp only
      rw [if_neg (by rintro (h | h); exact ha h; exact hw h)]
      rw [if_neg hb]
      rw [if_neg (by rintro (h | h); exact hv h; exact hf h)]
      rw [ite_self]
    · have hlt : y ≤ 30 + (k : Int) := by
        push_cast at h2 ⊢
        omega
      have hskip : skipId (get_block W x (30 + ((k : Int) + 1)) z) :=
        h3 k (Nat.lt_succ_self k) (by push_cast; omega)
      have hstep : scanColumnAux W x z (k + 1) = scanColumnAux W x z k := by
        conv_lhs => rw [scanColumnAux]
        rcases hskip with h | h | h | h | h
        · rw [if_pos (Or.inl h)]
        · rw [if_pos (Or.inr h)]
        · by_cases haw : get_block W x (30 + ((k : Int) + 1)) z = "air" ∨
              get_block W x (30 + ((k : Int) + 1)) z = "water"
          · rw [if_pos haw]
          · rw [if_neg haw, if_pos h]
        · by_cases haw : get_block W x (30 + ((k : Int) + 1)) z = "air" ∨
              get_block W x (30 + ((k : Int) + 1)) z = "water"
          · rw [if_pos haw]
          · rw [if_neg haw]
            by_cases hbb : get_block W x (30 + ((k : Int) + 1)) z ∈ BUILDING_BLOCKS
            · rw [if_pos hbb]
            · rw [if_neg hbb, if_pos (Or.inl h)]
        · by_cases haw : get_block W x (30 + ((k : Int) + 1)) z = "air" ∨
              get_block W x (30 + ((k : Int) + 1)) z = "water"
          · rw [if_pos haw]
          · rw [if_neg haw]
            by_cases hbb : get_block W x (30 + ((k : Int) + 1)) z ∈ BUILDING_BLOCKS
            · rw [if_pos hbb]
            · rw [if_neg hbb, if_pos (Or.inr h)]
      rw [hstep]
      exact ih y h1 hlt (fun j hj hyj => h3 j (Nat.lt_succ_of_lt hj) hyj) h4

/-- C3 counterexample: in a column whose first non-empty, non-liquid,
non-vegetation cell (y = 50, "oak_planks") has a built-material identifier,
`scan_ground` does not stop with no elevation: it skips the built cell, keeps
descending, and records the ground found below (y = 49), so the column is
present in the returned height map. -/
theorem c3_counterexample :
    firstNonVegCell exWorldColumn 0 0 70 = some (50, "oak_planks") ∧
    "oak_planks" ∈ BUILDING_BLOCKS ∧
    scan_ground exWorldColumn 0 0 5 (0, 0) = some 49 := by
  refine ⟨by decide, by decide, ?_⟩
  show (if _ then _ else _) = _
  rw [if_pos (by norm_num)]
  decide

/-- C3 (corrected): built-material cells do not stop the ground-only column
scan — they are skipped like vegetation, and an in-range column records the
highest band cell that is not air, water, a building block, or vegetation,
no matter which skipped identifiers lie above it.  (The band index `j`
encodes the level `y = 30 + (j + 1)`, j < 70.) -/
theorem c3_ground_scan (W : World) (cx cz radius x z y : Int)
    (hx1 : cx - radius ≤ x) (hx2 : x < cx + radius)
    (hz1 : cz - radius ≤ z) (hz2 : z < cz + radius)
    (hy1 : 30 < y) (hy2 : y ≤ 100)
    (habove : ∀ j : Nat, j < 70 → y < 30 + ((j : Int) + 1) →
      skipId (get_block W x (30 + ((j : Int) + 1)) z))
    (hy : ¬ skipId (get_block W x y z)) :
    scan_ground W cx cz radius (x, z) = some y := by
  show (if _ then _ else _) = _
  rw [if_pos ⟨hx1, hx2, hz1, hz2⟩]
  exact scanColumnAux_spec W x z 70 y hy1 (by push_cast; omega) habove hy

/-- C3 witness: the corrected behaviour at the concrete column of the
counterexample world: "grass_block" at y = 49 is recorded below the skipped
"oak_planks" at y = 50. -/
theorem c3_witness : scan_ground exWorldColumn 0 0 5 (0, 0) = some 49 :=
  c3_ground_scan exWorldColumn 0 0 5 0 0 49 (by norm_num) (by norm_num)
    (by norm_num) (by norm_num) (by norm_num) (by norm_num)
    (by decide) (by decide)

lemma expandNeighbor_cfInv (ground : Col → Option Int) (blocked : Col → Bool)
    (endNode current : Col) (st : AState) (d : Int × Int)
    (h : CFInv st.cameFrom blocked) :
    CFInv (expandNeighbor ground blocked endNode current st d).cameFrom blocked := by
  unfold expandNeighbor
  simp only
  split_ifs with h1 h2 h3
  · exact h
  · exact h
  · intro c hc
    simp only at hc
    by_cases hcn : c = (current.1 + d.1, current.2 + d.2)
    · subst hcn
      exact Bool.not_eq_true _ ▸ h1
    · rw [if_neg hcn] at hc
      exact h c hc
  · exact h

lemma foldl_expand_cfInv (ground : Col → Option Int) (blocked : Col → Bool)
    (endNode current : Col) :
    ∀ (l : List (Int × Int)) (st : AState), CFInv st.cameFrom blocked →
    CFInv (List.foldl (expandNeighbor ground blocked endNode current) st l).cameFrom
      blocked := by
  intro l
  induction l with
  | nil => intro st h; exact h
  | cons d l ih =>
    intro st h
    exact ih _ (expandNeighbor_cfInv ground blocked endNode current st d h)

lemma astarLoop_cfInv (ground : Col → Option Int) (blocked : Col → Bool)
    (endNode : Col) :
    ∀ (fuel : Nat) (st : AState) (cf : Col → Option Col),
    CFInv st.cameFrom blocked →
    astarLoop ground blocked endNode fuel st = some cf → CFInv cf blocked := by
  intro fuel
  induction fuel with
  | zero =>
    intro st cf h hE
    exact absurd hE (by simp [astarLoop])
  | succ fuel ih =>
    intro st cf h hE
    rw [astarLoop] at hE
    cases hP : popMin st.openSet with
    | none =>
      rw [hP] at hE
      exact (Option.some_inj.mp hE) ▸ h
    | some pr =>
      obtain ⟨entry, rest⟩ := pr
      rw [hP] at hE
      dsimp only at hE
      by_cases he : entry.2 = endNode
      · rw [if_pos he] at hE
        exact (Option.some_inj.mp hE) ▸ h
      · rw [if_neg he] at hE
        exact ih (expandAll ground blocked endNode entry.2 { st with openSet := rest })
          cf (foldl_expand_cfInv ground blocked endNode entry.2 neighborOffsets
            { st with openSet := rest } h) hE

lemma reconstruct_parts (ground : Col → Option Int) (cf : Col → Option Col)
    (startNode : Col) :
    ∀ (fuel : Nat) (current : Col) (acc r : List (Int × Int × Int)),
    reconstruct ground cf startNode fuel current acc = some r →
    ∃ pre, r = (startNode.1, hGet ground startNode, startNode.2) :: (pre ++ acc) ∧
      ∀ t ∈ pre, cf (t.1, t.2.2) ≠ none := by
  intro fuel
  induction fuel with
  | zero =>
    intro current acc r h
    exact absurd h (by simp [reconstruct])
  | succ fuel ih =>
    intro current acc r h
    rw [reconstruct] at h
    cases hc : cf current with
    | some p =>
      rw [hc] at h
      dsimp only at h
      obtain ⟨pre, hr, hpre⟩ :=
        ih p ((current.1, hGet ground current, current.2) :: acc) r h
      refine ⟨pre ++ [(current.1, hGet ground current, current.2)], ?_, ?_⟩
      · rw [hr]
        simp
      · intro t ht
        rcases List.mem_append.mp ht with h1 | h1
        · exact hpre t h1
        · rw [List.mem_singleton.mp h1]
          have hcc : cf (current.1, current.2) = some p := hc
          simp [hcc]
    | none =>
      rw [hc] at h
      dsimp only at h
      refine ⟨[], ?_, by simp⟩
      rw [← Option.some_inj.mp h]
      simp

lemma fallbackWalk_parts (ground : Col → Option Int) (ex ez dx dz : Int)
    (rand : Nat → Bool) :
    ∀ (fuel : Nat) (x z : Int) (i : Nat) (acc r : List (Int × Int × Int)),
    fallbackWalk ground ex ez dx dz rand fuel x z i acc = some r →
    ∃ mid, r = acc ++ mid ++ [(ex, hGet ground (ex, ez), ez)] ∧
      ∀ t ∈ mid, t.2.1 = hGet ground (t.1, t.2.2) := by
  intro fuel
  induction fuel with
  | zero =>
    intro x z i acc r h
    exact absurd h (by simp [fallbackWalk])
  | succ fuel ih =>
    intro x z i acc r h
    rw [fallbackWalk] at h
    by_cases hxz : x = ex ∧ z = ez
    · rw [if_pos hxz] at h
      refine ⟨[], ?_, by simp⟩
      rw [← Option.some_inj.mp h]
      simp
    · rw [if_neg hxz] at h
      dsimp only at h
      have step : ∀ (x2 z2 : Int) (i2 : Nat),
          fallbackWalk ground ex ez dx dz rand fuel x2 z2 i2
            (acc ++ [(x, hGet ground (x, z), z)]) = some r →
          ∃ mid, r = acc ++ mid ++ [(ex, hGet ground (ex, ez), ez)] ∧
            ∀ t ∈ mid, t.2.1 = hGet ground (t.1, t.2.2) := by
        intro x2 z2 i2 hh
        obtain ⟨mid, hr, hm⟩ := ih x2 z2 i2 _ r hh
        refine ⟨(x, hGet ground (x, z), z) :: mid, ?_, ?_⟩
        · rw [hr]
          simp
        · intro t ht
          rcases List.mem_cons.mp ht with h1 | h1
          · rw [h1]
          · exact hm t h1
      by_cases hx : x ≠ ex
      · rw [if_pos hx] at h
        by_cases hz : z = ez
        · rw [if_pos hz] at h
          exact step _ _ _ h
        · rw [if_neg hz] at h
          by_cases hr : rand i = true
          · rw [if_pos hr] at h
            exact step _ _ _ h
          · rw [if_neg hr] at h
            exact step _ _ _ h
      · rw [if_neg hx] at h
        exact step _ _ _ h

/-- C4 counterexample: the start column itself is never checked against the
blocked set — with (0,0) blocked, the primary search still succeeds and the
returned non-fallback route contains the blocked start column. -/
theorem c4_counterexample :
    build_smart_path exGround exBlockedStart (0, 0) (1, 0) randTrue 20 =
      some ([(0, 64, 0), (1, 64, 0)], false) ∧
    exBlockedStart (0, 0) = true ∧
    ((0 : Int), (64 : Int), (0 : Int)) ∈
      [((0 : Int), (64 : Int), (0 : Int)), (1, 64, 0)] := by
  refine ⟨by decide, by decide, by decide⟩

/-- C4 (corrected): in any route returned by the primary (non-fallback)
search, every element after the first — the first is always the start column,
which the search never tests — lies outside the blocked set; blocked columns
are skipped during neighbor relaxation, so only the start can violate the
claim. -/
theorem c4_blocked_avoidance (ground : Col → Option Int) (blocked : Col → Bool)
    (s e : Col) (rand : Nat → Bool) (fuel : Nat) (r : List (Int × Int × Int))
    (h : build_smart_path ground blocked s e rand fuel = some (r, false)) :
    ∀ t ∈ r.tail, blocked (t.1, t.2.2) = false := by
  rw [build_smart_path] at h
  cases hA : astarLoop ground blocked e fuel (initState s) with
  | none =>
    rw [hA] at h
    exact absurd h (by simp)
  | some cf =>
    rw [hA] at h
    dsimp only at h
    by_cases hc : ((cf e).isNone = true) ∧ e ≠ s
    · rw [if_pos hc] at h
      cases hF : fallbackWalk ground e.1 e.2 (stepDir s.1 e.1) (stepDir s.2 e.2)
          rand fuel s.1 s.2 0 [] with
      | none => rw [hF] at h; exact absurd h (by simp)
      | some r2 => rw [hF] at h; simp at h
    · rw [if_neg hc] at h
      cases hR : reconstruct ground cf s fuel e [] with
      | none => rw [hR] at h; exact absurd h (by simp)
      | some r0 =>
        rw [hR] at h
        have hr0 : r0 = r := by simpa using h
        subst hr0
        obtain ⟨pre, hr, hpre⟩ := reconstruct_parts ground cf s fuel e [] r0 hR
        have hcf : CFInv cf blocked :=
          astarLoop_cfInv ground blocked e fuel (initState s) cf
            (by intro c hcn; exact absurd rfl hcn) hA
        rw [hr]
        intro t ht
        simp only [List.tail_cons, List.append_nil] at ht
        have := hpre t ht
        by_cases hb : blocked (t.1, t.2.2) = true
        · exact absurd hb (by
            intro hbb
            exact absurd (hcf (t.1, t.2.2) this) (by simp [hbb]))
        · exact Bool.not_eq_true _ ▸ hb

/-- C4 witness: a concrete successful plan whose tail avoids the (empty)
blocked set. -/
theorem c4_witness : exBlockedNone ((1 : Int), (0 : Int)) = false :=
  c4_blocked_avoidance exGround exBlockedNone (0, 0) (1, 0) randTrue 20
    [(0, 64, 0), (1, 64, 0)] (by decide) (1, 64, 0) (by decide)

/-- C5 counterexample: on identical inputs the planner is not deterministic
once the greedy fallback is taken — two runs whose `random.random() < 0.5`
draws differ return different routes. -/
theorem c5_counterexample :
    build_smart_path exGroundGap exBlockedNone (0, 0) (2, 2) randTrue 10 ≠
      build_smart_path exGroundGap exBlockedNone (0, 0) (2, 2) randFalse 10 := by
  decide

/-- C5 (corrected): the planner is deterministic whenever the primary search
succeeds — the A* loop and the path reconstruction never consult the random
stream, so any two runs on identical height map, blocked set, start and goal
return the identical non-fallback route; only the fallback walk depends on
the draws. -/
theorem c5_determinism (ground : Col → Option Int) (blocked : Col → Bool)
    (s e : Col) (fuel : Nat) (r : List (Int × Int × Int))
    (rand1 rand2 : Nat → Bool)
    (h : build_smart_path ground blocked s e rand1 fuel = some (r, false)) :
    build_smart_path ground blocked s e rand2 fuel = some (r, false) := by
  rw [build_smart_path] at h ⊢
  cases hA : astarLoop ground blocked e fuel (initState s) with
  | none =>
    rw [hA] at h
    exact absurd h (by simp)
  | some cf =>
    rw [hA] at h
    dsimp only at h ⊢
    by_cases hc : ((cf e).isNone = true) ∧ e ≠ s
    · rw [if_pos hc] at h
      cases hF : fallbackWalk ground e.1 e.2 (stepDir s.1 e.1) (stepDir s.2 e.2)
          rand1 fuel s.1 s.2 0 [] with
      | none => rw [hF] at h; exact absurd h (by simp)
      | some r2 => rw [hF] at h; simp at h
    · rw [if_neg hc] at h ⊢
      exact h

/-- C5 witness: a successful plan under the all-true stream is reproduced
verbatim under the all-false stream. -/
theorem c5_witness :
    build_smart_path exGround exBlockedNone (0, 0) (1, 0) randFalse 20 =
      some ([(0, 64, 0), (1, 64, 0)], false) :=
  c5_determinism exGround exBlockedNone (0, 0) (1, 0) 20 [(0, 64, 0), (1, 64, 0)]
    randTrue randFalse (by decide)

/-- C6: whenever the primary search finishes with the goal absent from
`came_from` (open set exhausted without reaching it) and the goal differs
from the start, the planner returns the greedy fallback route with the
degraded flag set; that route is non-empty, its last element is the goal
column, and every step's elevation is the height map entry of its column
when present and the default 64 otherwise. -/
theorem c6_fallback_route (ground : Col → Option Int) (blocked : Col → Bool)
    (s e : Col) (rand : Nat → Bool) (fuel : Nat) (cf : Col → Option Col)
    (r : List (Int × Int × Int))
    (hA : astarLoop ground blocked e fuel (initState s) = some cf)
    (hcf : cf e = none) (hne : e ≠ s)
    (hF : fallbackWalk ground e.1 e.2 (stepDir s.1 e.1) (stepDir s.2 e.2)
      rand fuel s.1 s.2 0 [] = some r) :
    build_smart_path ground blocked s e rand fuel = some (r, true) ∧
    r ≠ [] ∧ r.getLast? = some (e.1, hGet ground (e.1, e.2), e.2) ∧
    ∀ t ∈ r, t.2.1 = hGet ground (t.1, t.2.2) := by
  obtain ⟨mid, hr, hm⟩ :=
    fallbackWalk_parts ground e.1 e.2 (stepDir s.1 e.1) (stepDir s.2 e.2)
      rand fuel s.1 s.2 0 [] r hF
  refine ⟨?_, ?_, ?_, ?_⟩
  · rw [build_smart_path, hA]
    dsimp only
    rw [if_pos ⟨by simp [hcf], hne⟩, hF]
  · rw [hr]
    simp
  · rw [hr]
    simp only [List.nil_append]
    exact List.getLast?_concat mid
  · intro t ht
    rw [hr] at ht
    simp only [List.nil_append] at ht
    rcases List.mem_append.mp ht with h1 | h1
    · exact hm t h1
    · rw [List.mem_singleton.mp h1]

/-- C6 witness: the concrete gap scenario — A* exhausts its open set, the
degraded flag is raised, and the returned route ends at the goal column. -/
theorem c6_witness :
    build_smart_path exGroundGap exBlockedNone (0, 0) (2, 2) randTrue 10 =
      some ([(0, 0, 0), (1, 64, 0), (2, 64, 0), (2, 64, 1), (2, 0, 2)], true) ∧
    ([((0 : Int), (0 : Int), (0 : Int)), (1, 64, 0), (2, 64, 0), (2, 64, 1),
      (2, 0, 2)]).getLast? = some (2, 0, 2) := by
  have H := c6_fallback_route exGroundGap exBlockedNone (0, 0) (2, 2) randTrue 10
    (fun _ => none) [(0, 0, 0), (1, 64, 0), (2, 64, 0), (2, 64, 1), (2, 0, 2)]
    rfl rfl (by decide) (by decide)
  exact ⟨H.1, H.2.2.1⟩
